import Mathlib

/-!
Verification of the feature-extraction and metric-computation pipeline of
`evaluation/evaluation.py` (class `Evaluation`): the batched feature
drivers (`compute_z`, `compute_z_gen`, `compute_z_svq`, `inception_score`,
the refinement loop in `sample`), the outlier-robust FID entry point
(`fid_score`), and the telemetry-logging methods (`log_visual_inspection`,
`log_pca`).  External collaborators (the pretrained FCN, the rocket kernel
bank, the maskgit sampler, wandb) are passed in as explicit parameters.
-/

namespace TimeVQVAE

/-- Python exception kinds that the embedded operations can raise. -/
inductive EvalError where
  | attributeError
  | indexError
  | insufficientDataError
deriving DecidableEq

/-- Batch-iteration count, from the source pattern
`n_iters = n_samples // self.batch_size` followed by
`if n_samples % self.batch_size > 0: n_iters += 1`
(used identically in `compute_z`, `compute_z_rec`, `compute_z_svq`,
`compute_z_gen` and `inception_score`; `sample` computes the same value
inline as `num_batches`). -/
def n_iters (batch_size n_samples : Nat) : Nat :=
  n_samples / batch_size + (if n_samples % batch_size > 0 then 1 else 0)

/-- The contiguous slice `X[i * batch_size : (i + 1) * batch_size]` read at
loop iteration `i`. -/
def sliceChunk (batch_size : Nat) (X : List α) (i : Nat) : List α :=
  (X.drop (i * batch_size)).take batch_size

/-- The batching driver shared by the feature-extraction loops: apply `f` to
each contiguous slice of `X` in order and concatenate the per-slice results
(`np.concatenate(zs, axis=0)` / `torch.cat`). -/
def batchedApply (batch_size : Nat) (f : List α → List β) (X : List α) : List β :=
  ((List.range (n_iters batch_size X.length)).map
    (fun i => f (sliceChunk batch_size X i))).flatten

lemma sliceChunk_zero (b : Nat) (X : List α) : sliceChunk b X 0 = X.take b := by
  simp [sliceChunk]

lemma sliceChunk_succ (b : Nat) (X : List α) (i : Nat) :
    sliceChunk b X (i + 1) = sliceChunk b (X.drop b) i := by
  simp only [sliceChunk, List.drop_drop]
  rw [Nat.succ_mul, Nat.add_comm]

/-- Concatenating the first `k` slices recovers the first `k * b` rows. -/
lemma joinSlices_eq_take (b : Nat) :
    ∀ (k : Nat) (X : List α),
      ((List.range k).map (fun i => sliceChunk b X i)).flatten = X.take (k * b) := by
  intro k
  induction k with
  | zero => intro X; simp
  | succ m ih =>
    intro X
    rw [List.range_succ_eq_map]
    simp only [List.map_cons, List.map_map, List.flatten_cons]
    have htail : (List.map ((fun i => sliceChunk b X i) ∘ Nat.succ) (List.range m)).flatten
        = (X.drop b).take (m * b) := by
      rw [← ih (X.drop b)]
      congr 1
      apply List.map_congr_left
      intro i _
      simp only [Function.comp_apply]
      exact sliceChunk_succ b X i
    rw [sliceChunk_zero, htail, ← List.take_add]
    congr 1
    ring

lemma n_iters_mul_ge (b n : Nat) (hb : 0 < b) : n ≤ n_iters b n * b := by
  have hmod := Nat.div_add_mod n b
  have hlt : n % b < b := Nat.mod_lt _ hb
  unfold n_iters
  by_cases h : n % b > 0
  · rw [if_pos h]
    calc n = b * (n / b) + n % b := hmod.symm
      _ ≤ b * (n / b) + b := by omega
      _ = (n / b + 1) * b := by ring
  · rw [if_neg h, Nat.add_zero]
    refine le_of_eq ?_
    calc n = b * (n / b) + n % b := hmod.symm
      _ = n / b * b := by
          have h0 : n % b = 0 := by omega
          rw [h0, Nat.add_zero, Nat.mul_comm]

lemma n_iters_pos (b n : Nat) (hb : 0 < b) (hn : 0 < n) : 0 < n_iters b n := by
  unfold n_iters
  by_cases h : n % b > 0
  · rw [if_pos h]; exact Nat.succ_pos (n / b)
  · rw [if_neg h, Nat.add_zero]
    rcases Nat.lt_or_ge n b with hlt | hge
    · exact absurd (show n % b > 0 by rw [Nat.mod_eq_of_lt hlt]; exact hn) h
    · exact Nat.div_pos hge hb

lemma n_iters_eq_ceil (b n : Nat) (hb : 0 < b) : n_iters b n = (n + b - 1) / b := by
  have hmod := Nat.div_add_mod n b
  have hlt : n % b < b := Nat.mod_lt _ hb
  unfold n_iters
  by_cases h : n % b > 0
  · rw [if_pos h]
    have hrw : n + b - 1 = b * (n / b) + (n % b + b - 1) := by omega
    have h1 : (n % b + b - 1) / b = 1 := by
      apply Nat.div_eq_of_lt_le
      · omega
      · have : (1 + 1) * b = b + b := by ring
        omega
    rw [hrw, Nat.mul_add_div hb, h1]
  · rw [if_neg h, Nat.add_zero]
    have h0 : n % b = 0 := by omega
    have hrw : n + b - 1 = b * (n / b) + (b - 1) := by omega
    have h1 : (b - 1) / b = 0 := Nat.div_eq_of_lt (by omega)
    rw [hrw, Nat.mul_add_div hb, h1, Nat.add_zero]

/-- When the per-slice function acts row-wise, batching computes the row map,
whatever the batch size. -/
lemma batchedApply_map (b : Nat) (hb : 0 < b) (g : α → β) (f : List α → List β)
    (hf : ∀ l, f l = l.map g) (X : List α) :
    batchedApply b f X = X.map g := by
  unfold batchedApply
  have h1 : (List.range (n_iters b X.length)).map (fun i => f (sliceChunk b X i))
      = (List.range (n_iters b X.length)).map (fun i => (sliceChunk b X i).map g) :=
    List.map_congr_left (fun i _ => hf _)
  rw [h1]
  have h2 : ((List.range (n_iters b X.length)).map
      (fun i => (sliceChunk b X i).map g)).flatten
      = (((List.range (n_iters b X.length)).map
          (fun i => sliceChunk b X i)).flatten).map g := by
    rw [List.map_flatten, List.map_map]
    rfl
  rw [h2, joinSlices_eq_take, List.map_take,
    List.take_of_length_le (by simpa using n_iters_mul_ge b X.length hb)]

/-- Reference-split selector, from `assert kind in ['train', 'test']` in
`compute_z` / `compute_z_rec` / `compute_z_svq`. -/
inductive DataKind where
  | train
  | test
deriving DecidableEq

/-- The fields of `Evaluation` that the batched drivers read: the configured
batch size (`config['evaluation']['batch_size']`) and the reference splits
loaded from the dataset importer.  The type `α` stands for one `(1, l)`
time-series sample. -/
structure EvalData (α : Type) where
  batch_size : Nat
  X_train : List α
  X_test : List α

/-- The split picked by `kind` (`X = self.X_train` / `X = self.X_test`). -/
def dataOf (ev : EvalData α) : DataKind → List α
  | .train => ev.X_train
  | .test => ev.X_test

/-- Evaluation.compute_z (evaluation.py:220-246): select the split, slice it
into `n_iters` contiguous batches, apply the feature extractor
(`self._extract_feature_representations`, passed here as `extract`) to each
batch, and concatenate the per-batch feature arrays. -/
def compute_z (ev : EvalData α) (extract : List α → List (List ℚ))
    (kind : DataKind) : List (List ℚ) :=
  batchedApply ev.batch_size extract (dataOf ev kind)

/-- Evaluation.compute_z_gen (evaluation.py:248-269): same driver over a
generated batch `X_gen` instead of a reference split. -/
def compute_z_gen (ev : EvalData α) (extract : List α → List (List ℚ))
    (X_gen : List α) : List (List ℚ) :=
  batchedApply ev.batch_size extract X_gen

/-- The `self.fidelity_enhancer` slot (evaluation.py:89-95): a
FidelityEnhancer restored from a checkpoint when `use_fidelity_enhancer`
is true, `nn.Identity()` otherwise.  `.loaded` carries the module's `tau`
parameter (read by `compute_z_svq`) and its learned refinement map. -/
inductive FidelityEnhancerSlot (α : Type) where
  | identity
  | loaded (tau : ℚ) (refine : List α → List α)

/-- The branch on `use_fidelity_enhancer` in `Evaluation.__init__`
(evaluation.py:89-95). -/
def init_fidelity_enhancer (α : Type) (use_fidelity_enhancer : Bool)
    (tau : ℚ) (refine : List α → List α) : FidelityEnhancerSlot α :=
  if use_fidelity_enhancer then .loaded tau refine else .identity

/-- Calling the module on a mini-batch: `nn.Identity()` returns its input
unchanged; a loaded FidelityEnhancer applies its learned map. -/
def feApply : FidelityEnhancerSlot α → List α → List α
  | .identity, x => x
  | .loaded _ refine, x => refine x

/-- The Python attribute read `self.fidelity_enhancer.tau`
(evaluation.py:205): `nn.Identity()` has no such attribute, so the read
raises AttributeError (`none`); a loaded FidelityEnhancer yields its tau. -/
def feTau : FidelityEnhancerSlot α → Option ℚ
  | .identity => none
  | .loaded tau _ => some tau

/-- Evaluation.sample (evaluation.py:108-131): sampling is delegated to the
unconditional/conditional sampler (external collaborator supplying `x_new`);
the refinement loop then applies `self.fidelity_enhancer` to contiguous
mini-batches of `x_new` and concatenates with `torch.cat`, returning the
unrefined batch alongside the refined `X_new_R`. -/
def sample (batch_size : Nat) (fe : FidelityEnhancerSlot α)
    (x_new : List α) : List α × List α :=
  (x_new, batchedApply batch_size (feApply fe) x_new)

/-- The pretrained FCN classifier with its two call modes in the source:
`self.fcn(x, return_feature_vector=True)` (penultimate-layer features) and
`torch.softmax(self.fcn(x), dim=-1)` (class probabilities; the softmax is a
deterministic library routine folded into `classProbs`). -/
structure FCNModel (α : Type) where
  featureVec : List α → List (List ℚ)
  classProbs : List α → List (List ℚ)

/-- The branch on `use_custom_dataset` in `Evaluation.__init__`
(evaluation.py:57-59): the FCN is loaded only when `use_custom_dataset` is
false; otherwise the attribute `self.fcn` is never assigned, modelled as
`none`. -/
def init_fcn (α : Type) (use_custom_dataset : Bool)
    (loaded : FCNModel α) : Option (FCNModel α) :=
  if use_custom_dataset then none else some loaded

/-- The extractor selector (`assert feature_extractor_type in
['supervised_fcn', 'rocket']`, evaluation.py:55). -/
inductive FeatureExtractorType where
  | supervised_fcn
  | rocket
deriving DecidableEq

/-- One raw sample is a `(channels, length)` matrix of rationals. -/
abbrev RawSample : Type := List (List ℚ)

/-- The numpy slice `x = x[:, 0, :]` (evaluation.py:140) on a `(b, c, l)`
batch: select channel 0 of every sample; IndexError when the channel axis is
empty. -/
def selectChannelZero (x : List RawSample) : Except EvalError (List (List ℚ)) :=
  if x.all (fun smp => !smp.isEmpty) then
    .ok (x.map (fun smp => smp.headD []))
  else
    .error .indexError

/-- Modelled from the spec: `apply_kernels` lives in
evaluation/rocket_functions.py, which is not under src/.  Per the spec
(section 4.1), each kernel of the fixed bank contributes two features per
series - the maximum convolution output and the proportion of positive
convolution values - so a bank of size K yields a 2K-dimensional vector per
series.  A kernel is modelled as a weight vector with a bias; convolution
slides the weights over the series. -/
def convOutputs (w : List ℚ) (bias : ℚ) (x : List ℚ) : List ℚ :=
  (List.range (x.length + 1 - w.length)).map
    (fun i => (List.zipWith (fun wj xj => wj * xj) w (x.drop i)).sum + bias)

/-- Modelled from the spec: proportion-of-positive-values feature of a
convolution output sequence. -/
def ppv (cs : List ℚ) : ℚ :=
  ((cs.filter (fun c => decide (0 < c))).length : ℚ) / (cs.length : ℚ)

/-- Modelled from the spec: the two per-kernel summary features. -/
def kernelFeatures (w : List ℚ) (bias : ℚ) (x : List ℚ) : List ℚ :=
  [(convOutputs w bias x).foldl max ((convOutputs w bias x).headD 0),
   ppv (convOutputs w bias x)]

/-- Modelled from the spec: the kernel-transform feature map over a
univariate batch of shape `(b, l)`. -/
def apply_kernels (kernels : List (List ℚ × ℚ)) (X : List (List ℚ)) :
    List (List ℚ) :=
  X.map (fun x => (kernels.map (fun k => kernelFeatures k.1 k.2 x)).flatten)

/-- Evaluation._extract_feature_representations (evaluation.py:133-144):
the supervised_fcn branch reads `self.fcn` (AttributeError when the
attribute was never assigned) and returns its feature vectors; the rocket
branch first selects channel 0 via `x[:, 0, :]` and then applies the kernel
transform `applyKernels` (embedding `apply_kernels(x, self.rocket_kernels)`). -/
def extract_feature_representations (fet : FeatureExtractorType)
    (fcn : Option (FCNModel RawSample))
    (applyKernels : List (List ℚ) → List (List ℚ))
    (x : List RawSample) : Except EvalError (List (List ℚ)) :=
  match fet with
  | .supervised_fcn =>
      match fcn with
      | none => .error .attributeError
      | some m => .ok (m.featureVec x)
  | .rocket =>
      match selectChannelZero x with
      | .error e => .error e
      | .ok x0 => .ok (applyKernels x0)

/-- One iteration of the compute_z_svq loop (evaluation.py:196-215): read
`self.fidelity_enhancer.tau` (AttributeError on `nn.Identity()`), run the
SVQ encode/decode round trip on the slice (the maskgit/stage1 collaborators,
abstracted as `svq tau`), and extract features of the result. -/
def svqIter (batch_size : Nat) (fe : FidelityEnhancerSlot α)
    (svq : ℚ → List α → List α) (extract : List α → List (List ℚ))
    (X : List α) (i : Nat) : Except EvalError (List (List ℚ) × List α) :=
  match feTau fe with
  | none => .error .attributeError
  | some tau =>
      let x_a := svq tau (sliceChunk batch_size X i)
      .ok (extract x_a, x_a)

/-- Evaluation.compute_z_svq (evaluation.py:175-218): run `svqIter` on every
batch of the selected split and concatenate both the feature arrays and the
decoded series. -/
def compute_z_svq (ev : EvalData α) (fe : FidelityEnhancerSlot α)
    (svq : ℚ → List α → List α) (extract : List α → List (List ℚ))
    (kind : DataKind) : Except EvalError (List (List ℚ) × List α) :=
  match (List.range (n_iters ev.batch_size (dataOf ev kind).length)).mapM
      (svqIter ev.batch_size fe svq extract (dataOf ev kind)) with
  | .error e => .error e
  | .ok rs => .ok ((rs.map Prod.fst).flatten, (rs.map Prod.snd).flatten)

/-- The concatenated class-probability array `p_yx_gen` built by
Evaluation.inception_score (evaluation.py:276-293): the iteration count is
derived from `self.X_test.shape[0]` (`nTest` here), while the slices are
taken from the argument `X_gen`; each batch goes through `self.fcn` and
softmax (AttributeError when `self.fcn` was never assigned). -/
def inception_score_p_yx (batch_size nTest : Nat)
    (fcn : Option (FCNModel α)) (X_gen : List α) :
    Except EvalError (List (List ℚ)) :=
  match (List.range (n_iters batch_size nTest)).mapM
      (fun i =>
        match fcn with
        | none => Except.error EvalError.attributeError
        | some m => Except.ok (m.classProbs (sliceChunk batch_size X_gen i))) with
  | .error e => .error e
  | .ok ps => .ok ps.flatten

/-- Evaluation.inception_score (evaluation.py:276-296): the concatenated
probability array is handed to `calculate_inception_score` (external
supervised_FCN_2 routine, abstracted as `calcIS`), which returns
`(IS_mean, IS_std)`. -/
def inception_score (calcIS : List (List ℚ) → ℚ × ℚ)
    (batch_size nTest : Nat) (fcn : Option (FCNModel α))
    (X_gen : List α) : Except EvalError (ℚ × ℚ) :=
  match inception_score_p_yx batch_size nTest fcn X_gen with
  | .error e => .error e
  | .ok p_yx_gen => .ok (calcIS p_yx_gen)

/-- One extracted feature entry as a floating-point class: a rational when
finite, or one of the non-finite IEEE classes. -/
inductive FloatVal where
  | fin (q : ℚ)
  | nan
  | inf
  | ninf
deriving DecidableEq

/-- Whether a feature entry is finite (`np.isfinite`). -/
def FloatVal.isFinite : FloatVal → Bool
  | .fin _ => true
  | _ => false

/-- A feature row survives filtering when all of its entries are finite. -/
def isFiniteRow (r : List FloatVal) : Bool :=
  r.all FloatVal.isFinite

/-- Modelled from the spec: `remove_outliers` is imported from utils, which
is not under src/.  Per the spec (section 4.3) it "drops rows that contain
any non-finite value (e.g. not-a-number or infinite magnitude) in any
dimension", keeping the surviving rows in original relative order. -/
def remove_outliers (z : List (List FloatVal)) : List (List FloatVal) :=
  z.filter isFiniteRow

/-- Modelled from the spec: `calculate_fid` is imported from
supervised_FCN_2.example_compute_FID, which is not under src/.  Per the spec
(section 4.4) it estimates each set's mean vector and covariance matrix and
computes the closed-form Frechet distance, and it "requires both sets to
have >= 2 surviving rows after filtering (covariance undefined otherwise) -
fails with an insufficient-data error if not".  The closed-form Gaussian
distance itself is kept abstract as the parameter `frechet`. -/
def calculate_fid (frechet : List (List FloatVal) → List (List FloatVal) → ℚ)
    (z1 z2 : List (List FloatVal)) : Except EvalError ℚ :=
  if 2 ≤ z1.length ∧ 2 ≤ z2.length then .ok (frechet z1 z2)
  else .error .insufficientDataError

/-- Evaluation.fid_score (evaluation.py:271-274): apply `remove_outliers` to
each feature set and delegate to `calculate_fid`. -/
def fid_score (frechet : List (List FloatVal) → List (List FloatVal) → ℚ)
    (z1 z2 : List (List FloatVal)) : Except EvalError ℚ :=
  calculate_fid frechet (remove_outliers z1) (remove_outliers z2)

/-- Evaluation.log_visual_inspection (evaluation.py:298-318): after building
the matplotlib figure, the method calls
`wandb.log({f"visual comp ({title})": wandb.Image(plt)})` followed by
`plt.close()`.  No statement of the body is wrapped in any exception
handler, so an exception from the telemetry sink propagates. -/
def log_visual_inspection (sink : String → Except ε Unit)
    (title : String) : Except ε Unit :=
  match sink ("visual comp (" ++ title ++ ")") with
  | .error e => .error e
  | .ok _ => .ok ()

/-- Evaluation.log_pca (evaluation.py:339-358): scatter-plots each feature
set, then calls `wandb.log({f"PCA on Z ({labels})": wandb.Image(plt)})` and
`plt.close()`.  Again no exception handler anywhere in the body. -/
def log_pca (sink : String → Except ε Unit)
    (labels : List String) : Except ε Unit :=
  match sink ("PCA on Z (" ++ String.intercalate ", " labels ++ ")") with
  | .error e => .error e
  | .ok _ => .ok ()

lemma sliceChunk_full_length (b : Nat) (X : List α) (i : Nat)
    (h : i + 1 < n_iters b X.length) : (sliceChunk b X i).length = b := by
  have hq : i + 1 ≤ X.length / b := by
    unfold n_iters at h
    by_cases hm : X.length % b > 0
    · rw [if_pos hm] at h; omega
    · rw [if_neg hm, Nat.add_zero] at h; omega
  have h2 : (i + 1) * b ≤ X.length / b * b := Nat.mul_le_mul_right b hq
  have h3 : X.length / b * b ≤ X.length := Nat.div_mul_le_self _ _
  have h4 : i * b + b ≤ X.length := by
    have hib : (i + 1) * b = i * b + b := by ring
    omega
  simp only [sliceChunk, List.length_take, List.length_drop]
  omega

lemma mapM_ok {γ δ : Type} (l : List γ) (v : γ → δ) :
    l.mapM (fun a => (Except.ok (v a) : Except EvalError δ))
      = Except.ok (l.map v) := by
  induction l with
  | nil => rfl
  | cons a as ih => rw [List.mapM_cons, ih]; rfl

lemma mapM_const_error {γ δ : Type} (l : List γ) (hl : l ≠ []) (e : EvalError) :
    l.mapM (fun _ => (Except.error e : Except EvalError δ)) = Except.error e := by
  cases l with
  | nil => exact absurd rfl hl
  | cons a as => rw [List.mapM_cons]; rfl

lemma rocket_channel_zero_aux (fcn : Option (FCNModel RawSample))
    (applyKernels : List (List ℚ) → List (List ℚ)) (x : List RawSample)
    (hch : ∀ smp ∈ x, smp ≠ []) :
    extract_feature_representations .rocket fcn applyKernels x
      = .ok (applyKernels (x.map (fun smp => smp.headD []))) := by
  have hall : x.all (fun smp => !smp.isEmpty) = true := by
    rw [List.all_eq_true]
    intro smp hs
    simpa [List.isEmpty_iff] using hch smp hs
  unfold extract_feature_representations selectChannelZero
  rw [if_pos hall]

/-- Claim C1: batch invariance of the batched feature-extraction drivers
`compute_z` and `compute_z_gen`: for an input with at least one sample and
any two positive batch sizes, slicing into contiguous batches, applying the
per-slice extractor and concatenating yields elementwise identical output,
provided the extractor maps each row independently of the other rows of its
slice. -/
theorem compute_z_batch_invariance {α : Type} (b1 b2 : Nat)
    (hb1 : 0 < b1) (hb2 : 0 < b2) (Xtr Xte : List α)
    (htr : 1 ≤ Xtr.length) (hte : 1 ≤ Xte.length)
    (extract : List α → List (List ℚ)) (g : α → List ℚ)
    (hrow : ∀ l, extract l = l.map g) :
    (∀ kind, compute_z ⟨b1, Xtr, Xte⟩ extract kind
        = compute_z ⟨b2, Xtr, Xte⟩ extract kind)
    ∧ ∀ X_gen : List α, 1 ≤ X_gen.length →
        compute_z_gen ⟨b1, Xtr, Xte⟩ extract X_gen
          = compute_z_gen ⟨b2, Xtr, Xte⟩ extract X_gen := by
  constructor
  · intro kind
    show batchedApply b1 extract _ = batchedApply b2 extract _
    rw [batchedApply_map b1 hb1 g extract hrow,
      batchedApply_map b2 hb2 g extract hrow]
    cases kind <;> rfl
  · intro X_gen _
    show batchedApply b1 extract X_gen = batchedApply b2 extract X_gen
    rw [batchedApply_map b1 hb1 g extract hrow,
      batchedApply_map b2 hb2 g extract hrow]

/-- Witness for C1 at batch sizes 2 and 3 over concrete data. -/
theorem compute_z_batch_invariance_witness :
    (compute_z (⟨2, [(1 : ℚ), 2, 3], [4, 5]⟩ : EvalData ℚ)
        (fun l => l.map (fun q => [q])) .train
      = compute_z (⟨3, [(1 : ℚ), 2, 3], [4, 5]⟩ : EvalData ℚ)
        (fun l => l.map (fun q => [q])) .train)
    ∧ compute_z_gen (⟨2, [(1 : ℚ), 2, 3], [4, 5]⟩ : EvalData ℚ)
        (fun l => l.map (fun q => [q])) [7]
      = compute_z_gen (⟨3, [(1 : ℚ), 2, 3], [4, 5]⟩ : EvalData ℚ)
        (fun l => l.map (fun q => [q])) [7] :=
  ⟨(compute_z_batch_invariance 2 3 (by decide) (by decide) [(1 : ℚ), 2, 3]
      [4, 5] (by decide) (by decide) (fun l => l.map (fun q => [q]))
      (fun q => [q]) (fun l => rfl)).1 .train,
   (compute_z_batch_invariance 2 3 (by decide) (by decide) [(1 : ℚ), 2, 3]
      [4, 5] (by decide) (by decide) (fun l => l.map (fun q => [q]))
      (fun q => [q]) (fun l => rfl)).2 [7] (by decide)⟩

/-- Claim C7: for a split of N >= 1 samples and positive batch size b,
`compute_z` iterates over exactly ceil(N / b) contiguous, non-overlapping
slices that concatenate back to the input in original order, every
non-final slice having length exactly b; and when the extractor acts
row-wise the concatenated output has exactly one feature row per input row,
in input order. -/
theorem compute_z_partition_order {α : Type} (ev : EvalData α)
    (kind : DataKind) (hb : 0 < ev.batch_size)
    (hX : 1 ≤ (dataOf ev kind).length)
    (extract : List α → List (List ℚ)) (g : α → List ℚ)
    (hrow : ∀ l, extract l = l.map g) :
    n_iters ev.batch_size (dataOf ev kind).length
        = ((dataOf ev kind).length + ev.batch_size - 1) / ev.batch_size
    ∧ ((List.range (n_iters ev.batch_size (dataOf ev kind).length)).map
        (fun i => sliceChunk ev.batch_size (dataOf ev kind) i)).flatten
        = dataOf ev kind
    ∧ (∀ i, i + 1 < n_iters ev.batch_size (dataOf ev kind).length →
        (sliceChunk ev.batch_size (dataOf ev kind) i).length = ev.batch_size)
    ∧ compute_z ev extract kind = (dataOf ev kind).map g
    ∧ (compute_z ev extract kind).length = (dataOf ev kind).length := by
  have hmap : compute_z ev extract kind = (dataOf ev kind).map g :=
    batchedApply_map ev.batch_size hb g extract hrow (dataOf ev kind)
  refine ⟨n_iters_eq_ceil ev.batch_size _ hb, ?_,
    fun i hi => sliceChunk_full_length ev.batch_size (dataOf ev kind) i hi,
    hmap, by rw [hmap, List.length_map]⟩
  rw [joinSlices_eq_take]
  exact List.take_of_length_le
    (n_iters_mul_ge ev.batch_size (dataOf ev kind).length hb)

/-- Witness for C7 over concrete data at batch size 2. -/
theorem compute_z_partition_order_witness :
    n_iters 2 3 = (3 + 2 - 1) / 2
    ∧ compute_z (⟨2, [(1 : ℚ), 2, 3], [4, 5]⟩ : EvalData ℚ)
        (fun l => l.map (fun q => [q])) .train
      = [(1 : ℚ), 2, 3].map (fun q => [q]) :=
  ⟨(compute_z_partition_order (⟨2, [(1 : ℚ), 2, 3], [4, 5]⟩ : EvalData ℚ)
      .train (by decide) (by decide) (fun l => l.map (fun q => [q]))
      (fun q => [q]) (fun l => rfl)).1,
   (compute_z_partition_order (⟨2, [(1 : ℚ), 2, 3], [4, 5]⟩ : EvalData ℚ)
      .train (by decide) (by decide) (fun l => l.map (fun q => [q]))
      (fun q => [q]) (fun l => rfl)).2.2.2.1⟩

/-- Claim C4: with `use_fidelity_enhancer = False` the enhancer slot is
`nn.Identity()`, and the batched refinement loop in `sample` returns a
refined batch `X_new_R` elementwise equal to the unrefined sampled batch
`x_new`. -/
theorem sample_identity_passthrough {α : Type} (batch_size : Nat)
    (hb : 0 < batch_size) (tau : ℚ) (refine : List α → List α)
    (x_new : List α) (hx : 1 ≤ x_new.length) :
    (sample batch_size (init_fidelity_enhancer α false tau refine) x_new).2
      = (sample batch_size (init_fidelity_enhancer α false tau refine) x_new).1 := by
  show batchedApply batch_size
    (feApply (init_fidelity_enhancer α false tau refine)) x_new = x_new
  have hfe : init_fidelity_enhancer α false tau refine
      = FidelityEnhancerSlot.identity := rfl
  rw [hfe]
  have hid : batchedApply batch_size
      (feApply (FidelityEnhancerSlot.identity : FidelityEnhancerSlot α)) x_new
      = x_new.map id :=
    batchedApply_map batch_size hb id _ (fun l => (List.map_id l).symm) x_new
  simpa using hid

/-- Witness for C4 at batch size 2 over a concrete sampled batch. -/
theorem sample_identity_passthrough_witness :
    (sample 2 (init_fidelity_enhancer ℚ false 0 (fun l => l)) [1, 2, 3]).2
      = (sample 2 (init_fidelity_enhancer ℚ false 0 (fun l => l)) [1, 2, 3]).1 :=
  sample_identity_passthrough 2 (by decide) 0 (fun l => l) [1, 2, 3] (by decide)

/-- Claim C3: whenever either feature set has fewer than 2 rows surviving
outlier filtering, `fid_score` yields the insufficient-data error and no
score. -/
theorem fid_score_insufficient_data
    (frechet : List (List FloatVal) → List (List FloatVal) → ℚ)
    (z1 z2 : List (List FloatVal))
    (h : (remove_outliers z1).length < 2 ∨ (remove_outliers z2).length < 2) :
    fid_score frechet z1 z2 = .error .insufficientDataError := by
  unfold fid_score calculate_fid
  have hneg : ¬(2 ≤ (remove_outliers z1).length
      ∧ 2 ≤ (remove_outliers z2).length) := by omega
  rw [if_neg hneg]

/-- Witness for C3: a set whose single row contains a NaN leaves fewer than
2 surviving rows. -/
theorem fid_score_insufficient_data_witness :
    fid_score (fun _ _ => 0) [[FloatVal.nan]]
      [[FloatVal.fin 0], [FloatVal.fin 1]] = .error .insufficientDataError :=
  fid_score_insufficient_data (fun _ _ => 0) [[FloatVal.nan]]
    [[FloatVal.fin 0], [FloatVal.fin 1]] (Or.inl (by decide))

/-- Claim C5: `fid_score` filters each set independently before the distance
computation: it equals `calculate_fid` on the two separately filtered sets,
the surviving rows of each set form an order-preserving subset of that set
alone, and a row survives exactly when it belongs to its own set and is
entirely finite. -/
theorem fid_score_independent_filtering
    (frechet : List (List FloatVal) → List (List FloatVal) → ℚ)
    (z1 z2 : List (List FloatVal)) :
    fid_score frechet z1 z2
      = calculate_fid frechet (z1.filter isFiniteRow) (z2.filter isFiniteRow)
    ∧ (remove_outliers z1).Sublist z1
    ∧ (remove_outliers z2).Sublist z2
    ∧ (∀ r, r ∈ remove_outliers z1 ↔ r ∈ z1 ∧ isFiniteRow r = true)
    ∧ (∀ r, r ∈ remove_outliers z2 ↔ r ∈ z2 ∧ isFiniteRow r = true) := by
  refine ⟨rfl, List.filter_sublist _, List.filter_sublist _, ?_, ?_⟩ <;>
    intro r <;> simp [remove_outliers, List.mem_filter]

/-- A concrete 1-sample batch with two channels, for exercising the rocket
branch of `_extract_feature_representations`. -/
def x2ch : List RawSample := [[[1, 2, 3], [4, 5, 6]]]

/-- A one-kernel bank: identity weight, zero bias. -/
def kbank : List (List ℚ × ℚ) := [([1], 0)]

/-- Counterexample to claim C2: on a batch whose single sample has two
channels, the rocket branch does not fail with an unsupported-input error -
it silently selects channel 0 and returns the feature vector of that
channel (max convolution output 3 and proportion of positives 1 for the
one-kernel bank). -/
theorem rocket_multichannel_counterexample :
    x2ch.map List.length = [2]
    ∧ extract_feature_representations .rocket none (apply_kernels kbank) x2ch
        = .ok [[3, 1]] := by
  constructor
  · rfl
  · show Except.ok (apply_kernels kbank [[1, 2, 3]])
        = Except.ok ([[(3 : ℚ), 1]] : List (List ℚ))
    have hconv : convOutputs [1] 0 [1, 2, 3] = [1, 2, 3] := by
      simp [convOutputs, List.range_succ]
    simp [apply_kernels, kbank, kernelFeatures, hconv, ppv]
    norm_num

/-- Claim C2 as amended: for every input batch in which each sample has at
least one channel (in particular any multi-channel batch), the rocket
branch succeeds, returning the kernel-transform features of channel 0 of
each sample; no unsupported-input error is raised. -/
theorem rocket_selects_channel_zero (fcn : Option (FCNModel RawSample))
    (applyKernels : List (List ℚ) → List (List ℚ)) (x : List RawSample)
    (hch : ∀ smp ∈ x, smp ≠ []) :
    extract_feature_representations .rocket fcn applyKernels x
      = .ok (applyKernels (x.map (fun smp => smp.headD []))) :=
  rocket_channel_zero_aux fcn applyKernels x hch

/-- Witness for the amended C2 on the concrete two-channel batch. -/
theorem rocket_selects_channel_zero_witness :
    extract_feature_representations .rocket none (apply_kernels kbank) x2ch
      = .ok (apply_kernels kbank (x2ch.map (fun smp => smp.headD []))) :=
  rocket_selects_channel_zero none (apply_kernels kbank) x2ch (by decide)

/-- A telemetry sink that always fails. -/
def failingSink : String → Except String Unit :=
  fun _ => .error "wandb connection failure"

/-- Counterexample to claim C6: an error raised by the telemetry sink inside
`log_visual_inspection` is not caught - it propagates verbatim to the
caller. -/
theorem telemetry_error_propagates_counterexample :
    log_visual_inspection failingSink "test"
      = .error "wandb connection failure" := rfl

/-- Claim C6 as amended: the telemetry-sink calls in `log_visual_inspection`
and `log_pca` are wrapped in no exception handler, so any error the sink
raises propagates unchanged to the caller. -/
theorem telemetry_error_propagates {ε : Type} (sink : String → Except ε Unit)
    (title : String) (labels : List String) (e1 e2 : ε)
    (h1 : sink ("visual comp (" ++ title ++ ")") = .error e1)
    (h2 : sink ("PCA on Z (" ++ String.intercalate ", " labels ++ ")")
      = .error e2) :
    log_visual_inspection sink title = .error e1
    ∧ log_pca sink labels = .error e2 := by
  unfold log_visual_inspection log_pca
  rw [h1, h2]
  exact ⟨rfl, rfl⟩

/-- Witness for the amended C6 with the always-failing sink. -/
theorem telemetry_error_propagates_witness :
    log_visual_inspection failingSink "t" = .error "wandb connection failure"
    ∧ log_pca failingSink ["a", "b"] = .error "wandb connection failure" :=
  telemetry_error_propagates failingSink "t" ["a", "b"]
    "wandb connection failure" "wandb connection failure" rfl rfl

lemma flatten_map_slices (b k : Nat) (g : α → β) (X : List α) :
    ((List.range k).map (fun i => (sliceChunk b X i).map g)).flatten
      = (X.take (k * b)).map g := by
  have h2 : ((List.range k).map (fun i => (sliceChunk b X i).map g)).flatten
      = (((List.range k).map (fun i => sliceChunk b X i)).flatten).map g := by
    rw [List.map_flatten, List.map_map]
    rfl
  rw [h2, joinSlices_eq_take, List.map_take]

/-- Claim C8: `inception_score` derives its batch-iteration count from the
size of the reference test split (`self.X_test.shape[0]`), not from its
argument: the concatenated class-probability set consists of exactly the
first ceil(nTest / batch_size) * batch_size rows of `X_gen`, so for a
larger `X_gen` the excess generated rows are silently excluded, and the
number of probability vectors scored is
min(|X_gen|, ceil(nTest / batch_size) * batch_size). -/
theorem inception_score_counts_from_test_split {α : Type}
    (batch_size nTest : Nat) (hb : 0 < batch_size) (hn : 0 < nTest)
    (m : FCNModel α) (g : α → List ℚ)
    (hrow : ∀ l, m.classProbs l = l.map g) (X_gen : List α) :
    inception_score_p_yx batch_size nTest (some m) X_gen
      = .ok ((X_gen.take (n_iters batch_size nTest * batch_size)).map g)
    ∧ ((X_gen.take (n_iters batch_size nTest * batch_size)).map g).length
      = min X_gen.length (n_iters batch_size nTest * batch_size)
    ∧ n_iters batch_size nTest = (nTest + batch_size - 1) / batch_size := by
  have h0 : inception_score_p_yx batch_size nTest (some m) X_gen
      = match (List.range (n_iters batch_size nTest)).mapM
          (fun i => (Except.ok (m.classProbs (sliceChunk batch_size X_gen i))
            : Except EvalError (List (List ℚ)))) with
        | .error e => .error e
        | .ok ps => .ok ps.flatten := rfl
  refine ⟨?_, ?_, n_iters_eq_ceil batch_size nTest hb⟩
  · rw [h0, mapM_ok]
    show Except.ok _ = _
    congr 1
    have h1 : (List.range (n_iters batch_size nTest)).map
        (fun i => m.classProbs (sliceChunk batch_size X_gen i))
        = (List.range (n_iters batch_size nTest)).map
          (fun i => (sliceChunk batch_size X_gen i).map g) :=
      List.map_congr_left (fun i _ => hrow _)
    rw [h1]
    exact flatten_map_slices batch_size (n_iters batch_size nTest) g X_gen
  · rw [List.length_map, List.length_take]
    exact Nat.min_comm _ _

/-- Witness for C8: batch size 2, a 3-sample test split (so 2 iterations
covering 4 rows) and a 5-row generated batch; the fifth row is dropped. -/
theorem inception_score_counts_from_test_split_witness :
    inception_score_p_yx 2 3
      (some (⟨fun l => l.map (fun q => [q]), fun l => l.map (fun q => [q])⟩
        : FCNModel ℚ)) [(1 : ℚ), 2, 3, 4, 5]
      = .ok (([(1 : ℚ), 2, 3, 4, 5].take (n_iters 2 3 * 2)).map
          (fun q => [q])) :=
  (inception_score_counts_from_test_split 2 3 (by decide) (by decide)
    (⟨fun l => l.map (fun q => [q]), fun l => l.map (fun q => [q])⟩
      : FCNModel ℚ) (fun q => [q]) (fun l => rfl) [(1 : ℚ), 2, 3, 4, 5]).1

/-- Claim C9: with `use_fidelity_enhancer = False` the enhancer slot is
`nn.Identity()`, which has no `tau` attribute, so `compute_z_svq` raises
AttributeError on its first batch for any non-empty split. -/
theorem compute_z_svq_attribute_error {α : Type} (ev : EvalData α)
    (kind : DataKind) (hb : 0 < ev.batch_size)
    (hX : 1 ≤ (dataOf ev kind).length) (tau : ℚ)
    (refine : List α → List α) (svq : ℚ → List α → List α)
    (extract : List α → List (List ℚ)) :
    compute_z_svq ev (init_fidelity_enhancer α false tau refine) svq extract
      kind = .error .attributeError := by
  have hfe : init_fidelity_enhancer α false tau refine
      = FidelityEnhancerSlot.identity := rfl
  rw [hfe]
  unfold compute_z_svq
  obtain ⟨k, hk⟩ : ∃ k, n_iters ev.batch_size (dataOf ev kind).length
      = k + 1 :=
    ⟨n_iters ev.batch_size (dataOf ev kind).length - 1, by
      have hpos := n_iters_pos ev.batch_size (dataOf ev kind).length hb hX
      omega⟩
  rw [hk, List.range_succ_eq_map, List.mapM_cons]
  have h0 : svqIter ev.batch_size FidelityEnhancerSlot.identity svq extract
      (dataOf ev kind) 0 = .error .attributeError := rfl
  rw [h0]
  rfl

/-- Witness for C9 on a one-sample split at batch size 1. -/
theorem compute_z_svq_attribute_error_witness :
    compute_z_svq (⟨1, [(0 : ℚ)], [(0 : ℚ)]⟩ : EvalData ℚ)
      (init_fidelity_enhancer ℚ false 0 (fun l => l)) (fun _ l => l)
      (fun l => l.map (fun q => [q])) .train = .error .attributeError :=
  compute_z_svq_attribute_error (⟨1, [(0 : ℚ)], [(0 : ℚ)]⟩ : EvalData ℚ)
    .train (by decide) (by decide) 0 (fun l => l) (fun _ l => l)
    (fun l => l.map (fun q => [q]))

/-- Claim C10: with `use_custom_dataset = True` the pretrained FCN is never
loaded, so `inception_score` and the supervised_fcn extraction branch raise
AttributeError on any call, while the rocket branch remains usable. -/
theorem custom_dataset_fcn_never_loaded (loaded : FCNModel RawSample)
    (batch_size nTest : Nat) (hb : 0 < batch_size) (hn : 0 < nTest)
    (X_gen : List RawSample)
    (applyKernels : List (List ℚ) → List (List ℚ))
    (x : List RawSample) (hch : ∀ smp ∈ x, smp ≠ []) :
    init_fcn RawSample true loaded = none
    ∧ inception_score_p_yx batch_size nTest (init_fcn RawSample true loaded)
        X_gen = .error .attributeError
    ∧ extract_feature_representations .supervised_fcn
        (init_fcn RawSample true loaded) applyKernels x
        = .error .attributeError
    ∧ extract_feature_representations .rocket
        (init_fcn RawSample true loaded) applyKernels x
        = .ok (applyKernels (x.map (fun smp => smp.headD []))) := by
  have hfcn : init_fcn RawSample true loaded = none := rfl
  refine ⟨hfcn, ?_, by rw [hfcn]; rfl,
    by rw [hfcn]; exact rocket_channel_zero_aux none applyKernels x hch⟩
  rw [hfcn]
  have h0 : inception_score_p_yx batch_size nTest
      (none : Option (FCNModel RawSample)) X_gen
      = match (List.range (n_iters batch_size nTest)).mapM
          (fun _ => (Except.error EvalError.attributeError
            : Except EvalError (List (List ℚ)))) with
        | .error e => .error e
        | .ok ps => .ok ps.flatten := rfl
  have hrange : List.range (n_iters batch_size nTest) ≠ [] := by
    rw [Ne, List.range_eq_nil]
    have hpos := n_iters_pos batch_size nTest hb hn
    omega
  rw [h0, mapM_const_error _ hrange]

/-- Witness for C10 at batch size 1 with a 1-sample test split and a
single-channel batch for the rocket branch. -/
theorem custom_dataset_fcn_never_loaded_witness :
    inception_score_p_yx 1 1
      (init_fcn RawSample true
        ⟨fun l => l.map (fun _ => []), fun l => l.map (fun _ => [])⟩)
      ([] : List RawSample) = .error .attributeError
    ∧ extract_feature_representations .rocket
        (init_fcn RawSample true
          ⟨fun l => l.map (fun _ => []), fun l => l.map (fun _ => [])⟩)
        (fun l => l) [[[1]]]
        = .ok ((fun l => l) ([[[(1 : ℚ)]]].map (fun smp => smp.headD []))) :=
  ⟨(custom_dataset_fcn_never_loaded
      ⟨fun l => l.map (fun _ => []), fun l => l.map (fun _ => [])⟩ 1 1
      (by decide) (by decide) [] (fun l => l) [[[1]]] (by decide)).2.1,
   (custom_dataset_fcn_never_loaded
      ⟨fun l => l.map (fun _ => []), fun l => l.map (fun _ => [])⟩ 1 1
      (by decide) (by decide) [] (fun l => l) [[[1]]] (by decide)).2.2.2⟩

end TimeVQVAE
